import Mathlib

/-!
The smear engine of datamosh_website and its audio coupling (`script.js`).

A shallow embedding of `copyBlock`, `handleDirectionChange`, `initAudio` and
`handleMouseMove`.

Conventions of the embedding.
* A `Uint8ClampedArray` is a `List Nat`; a store clamps the stored value to
  `0..255` (`clampByte`), a store outside the array is ignored (`List.set`).
* JavaScript numbers are rationals with exact arithmetic; `Math.floor` is
  `Int.floor`.  Integer-valued quantities (indices, rectangle coordinates) are
  `Int`, sizes that the source only ever uses as non-negative counts are `Nat`.
* `Math.sqrt` is a parameter `sqrt : ℚ → ℚ` of the handler.
* `Math.random` is a stream `random : Nat → ℚ` read through a cursor kept in
  the state.
* Calls into the Web Audio and Canvas APIs are recorded in the state.
-/

namespace Datamosh

/-! ## Pixel buffers and `copyBlock` -/

/-- Value kept by a store into a `Uint8ClampedArray`. -/
def clampByte (v : Nat) : Nat := min v 255

/-- One iteration of the first inner loop of `copyBlock` (lines 209-223):
the source pixel of block offset `(x, y)` is read into the temporary buffer,
or four zeros are stored when the source index fails the bounds check. -/
def readStep (pixels : List Nat) (dataWidth : Nat) (srcX srcY : Int) (blockWidth : Nat)
    (tempBlockData : List Nat) (y x : Nat) : List Nat :=
  let srcIndex : Int := ((srcY + y) * dataWidth + (srcX + x)) * 4
  let tempIndex : Nat := (y * blockWidth + x) * 4
  if 0 ≤ srcIndex ∧ srcIndex + 3 < pixels.length then
    (((tempBlockData.set tempIndex (clampByte (pixels.getD srcIndex.toNat 0))).set
      (tempIndex + 1) (clampByte (pixels.getD (srcIndex.toNat + 1) 0))).set
      (tempIndex + 2) (clampByte (pixels.getD (srcIndex.toNat + 2) 0))).set
      (tempIndex + 3) (clampByte (pixels.getD (srcIndex.toNat + 3) 0))
  else
    (((tempBlockData.set tempIndex (clampByte 0)).set (tempIndex + 1) (clampByte 0)).set
      (tempIndex + 2) (clampByte 0)).set (tempIndex + 3) (clampByte 0)

/-- One iteration of the second inner loop of `copyBlock` (lines 230-238):
the temporary pixel of block offset `(x, y)` is stored at the destination,
unless the destination index fails the bounds check. -/
def writeStep (tempBlockData : List Nat) (dataWidth : Nat) (destX destY : Int)
    (blockWidth : Nat) (pixels : List Nat) (y x : Nat) : List Nat :=
  let destIndex : Int := ((destY + y) * dataWidth + (destX + x)) * 4
  let tempIndex : Nat := (y * blockWidth + x) * 4
  if 0 ≤ destIndex ∧ destIndex + 3 < pixels.length then
    (((pixels.set destIndex.toNat (clampByte (tempBlockData.getD tempIndex 0))).set
      (destIndex.toNat + 1) (clampByte (tempBlockData.getD (tempIndex + 1) 0))).set
      (destIndex.toNat + 2) (clampByte (tempBlockData.getD (tempIndex + 2) 0))).set
      (destIndex.toNat + 3) (clampByte (tempBlockData.getD (tempIndex + 3) 0))
  else
    pixels

/-- The temporary buffer after the first pair of loops of `copyBlock`
(lines 204-225). -/
def fillTemp (pixels : List Nat) (dataWidth : Nat) (srcX srcY : Int)
    (blockWidth blockHeight : Nat) : List Nat :=
  (List.range blockHeight).foldl
    (fun temp y =>
      (List.range blockWidth).foldl
        (fun temp x => readStep pixels dataWidth srcX srcY blockWidth temp y x) temp)
    (List.replicate (blockWidth * blockHeight * 4) 0)

/-- The function `copyBlock` (lines 201-241).  The parameter `dataHeight` is
unused, as in the source. -/
def copyBlock (pixels : List Nat) (dataWidth dataHeight : Nat) (srcX srcY destX destY : Int)
    (blockWidth blockHeight : Nat) : List Nat :=
  let _unused := dataHeight
  let tempBlockData := fillTemp pixels dataWidth srcX srcY blockWidth blockHeight
  (List.range blockHeight).foldl
    (fun pixels y =>
      (List.range blockWidth).foldl
        (fun pixels x => writeStep tempBlockData dataWidth destX destY blockWidth pixels y x)
        pixels)
    pixels

/-- The four bytes (R, G, B, A) of the pixel at column `px`, row `py` of a
row-major buffer that is `dataWidth` pixels wide. -/
def pixelAt (buf : List Nat) (dataWidth : Nat) (px py : Int) : List Nat :=
  let i : Nat := (((py * dataWidth + px) * 4 : Int)).toNat
  [buf.getD i 0, buf.getD (i + 1) 0, buf.getD (i + 2) 0, buf.getD (i + 3) 0]

/-! ## Configuration (lines 12-17, 23) -/

def effectAreaSize : Int := 100
def numberOfSmearBlocks : Nat := 4
def minSmearBlockSize : Int := 60
def maxSmearBlockSize : Int := 100
def blockSmearDistance : ℚ := 4
def blockSmearRandomness : ℚ := 3
def glitchFrequencies : List ℚ := [60, 80, 120, 180, 240]

/-! ## Program state -/

/-- The `state` attribute of an `AudioContext`. -/
inductive AudioContextState where
  | suspended
  | running
  | closed
  deriving DecidableEq

/-- A scheduling call on the oscillator's `frequency` or the gain node's
`gain` parameter.  `delay` is the scheduled time minus
`audioContext.currentTime`. -/
inductive AudioCall where
  | frequencySetValueAtTime (value delay : ℚ)
  | frequencyLinearRampToValueAtTime (value delay : ℚ)
  | gainSetValueAtTime (value delay : ℚ)
  | gainLinearRampToValueAtTime (value delay : ℚ)
  deriving DecidableEq

/-- A pixel-buffer call on the canvas context. -/
inductive CanvasCall where
  | getImageData (sx sy sw sh : Int)
  | putImageData (dx dy : Int)
  deriving DecidableEq

/-- The globals of `script.js` (lines 5-9, 20-24), the canvas, the random
source, and the record of calls made into the audio and canvas APIs.
`audioContext = none` is the JavaScript `null`; `oscillator` and `gainNode`
record whether the variable holds a node. -/
structure State where
  uploadedImage : Bool
  lastMouseX : Option ℚ
  lastMouseY : Option ℚ
  lastMoveDirection : Int × Int
  currentGlitchFrequencyIndex : Nat
  audioContext : Option AudioContextState
  oscillator : Bool
  gainNode : Bool
  canvasWidth : Nat
  canvasHeight : Nat
  canvasPixels : List Nat
  random : Nat → ℚ
  randomCursor : Nat
  audioCalls : List AudioCall
  canvasCalls : List CanvasCall

/-- `Math.random()`: the next value of the stream. -/
def State.nextRandom (s : State) : ℚ × State :=
  (s.random s.randomCursor, { s with randomCursor := s.randomCursor + 1 })

/-- Record a call on an audio parameter. -/
def State.audio (s : State) (c : AudioCall) : State :=
  { s with audioCalls := s.audioCalls ++ [c] }

/-- Record a call on the canvas context. -/
def State.canvas (s : State) (c : CanvasCall) : State :=
  { s with canvasCalls := s.canvasCalls ++ [c] }

/-! ## Audio: `initAudio` and `handleDirectionChange` -/

/-- The function `initAudio` (lines 27-59).  `created` is what
`new AudioContext()` yields: `none` when the constructor throws (the `catch`
branch), otherwise the state of the fresh context. -/
def initAudio (s : State) (created : Option AudioContextState) : State :=
  if s.audioContext = some AudioContextState.running then s
  else
    match created with
    | none => s
    | some st =>
      let s := { s with audioContext := some st }
      let s := { s with oscillator := true }
      let s := s.audio (AudioCall.frequencySetValueAtTime
        (glitchFrequencies.getD s.currentGlitchFrequencyIndex 0) 0)
      let s := { s with currentGlitchFrequencyIndex :=
        (s.currentGlitchFrequencyIndex + 1) % glitchFrequencies.length }
      let s := { s with gainNode := true }
      s.audio (AudioCall.gainSetValueAtTime 0 0)

/-- The primary direction quadrant of a vector (lines 68-73). -/
def classify (direction : ℚ × ℚ) : Int × Int :=
  if |direction.1| > |direction.2| then
    (if direction.1 > 0 then 1 else -1, 0)
  else
    (0, if direction.2 > 0 then 1 else -1)

/-- One iteration of the pitch-jump loop (lines 88-91). -/
def jumpStep (baseFrequency glitchDuration : ℚ) (numberOfJumps : Nat)
    (frequencyRandomness : ℚ) (s : State) (i : Nat) : State :=
  let (r, s) := s.nextRandom
  let randomFactor := (r - 1 / 2) * frequencyRandomness
  let glitchFreq := max 30 (baseFrequency + randomFactor)
  let jumpTime := ((i : ℚ) + 1) * (glitchDuration / numberOfJumps)
  s.audio (AudioCall.frequencyLinearRampToValueAtTime glitchFreq jumpTime)

/-- The function `handleDirectionChange` (lines 62-105). -/
def handleDirectionChange (s : State) (direction : ℚ × ℚ) : State :=
  if s.audioContext = none ∨ s.audioContext ≠ some AudioContextState.running ∨
      s.oscillator = false ∨ s.gainNode = false then
    s
  else
    let currentDirection := classify direction
    if currentDirection.1 ≠ s.lastMoveDirection.1 ∨
        currentDirection.2 ≠ s.lastMoveDirection.2 then
      let s := { s with currentGlitchFrequencyIndex :=
        (s.currentGlitchFrequencyIndex + 1) % glitchFrequencies.length }
      let baseFrequency := glitchFrequencies.getD s.currentGlitchFrequencyIndex 0
      let glitchDuration : ℚ := 8 / 100
      let numberOfJumps : Nat := 3
      let frequencyRandomness : ℚ := 80
      let s := s.audio (AudioCall.frequencySetValueAtTime baseFrequency 0)
      let s := (List.range numberOfJumps).foldl
        (jumpStep baseFrequency glitchDuration numberOfJumps frequencyRandomness) s
      let s := s.audio
        (AudioCall.frequencyLinearRampToValueAtTime baseFrequency (glitchDuration + 5 / 100))
      let s := s.audio (AudioCall.gainSetValueAtTime (4 / 10) 0)
      let s := s.audio (AudioCall.gainLinearRampToValueAtTime 0 (glitchDuration + 1 / 10))
      { s with lastMoveDirection := currentDirection }
    else
      s

/-! ## Canvas pixel access -/

/-- Canvas `getImageData(sx, sy, sw, sh)`: the pixels of the rectangle in
row-major order; a pixel outside the canvas reads as transparent black. -/
def getImageData (canvasWidth canvasHeight : Nat) (canvasPixels : List Nat)
    (sx sy : Int) (sw sh : Nat) : List Nat :=
  (List.range sh).flatMap fun y =>
    (List.range sw).flatMap fun x =>
      if 0 ≤ sx + x ∧ sx + x < canvasWidth ∧ 0 ≤ sy + y ∧ sy + y < canvasHeight then
        pixelAt canvasPixels canvasWidth (sx + x) (sy + y)
      else
        [0, 0, 0, 0]

/-- Canvas `putImageData(imageData, dx, dy)`: every pixel of the image data
that falls inside the canvas replaces the canvas pixel there. -/
def putImageData (canvasWidth canvasHeight : Nat) (canvasPixels : List Nat)
    (data : List Nat) (dataWidth dataHeight : Nat) (dx dy : Int) : List Nat :=
  (List.range dataHeight).foldl
    (fun canvasPixels (y : Nat) =>
      (List.range dataWidth).foldl
        (fun canvasPixels (x : Nat) =>
          if 0 ≤ dx + x ∧ dx + x < canvasWidth ∧ 0 ≤ dy + y ∧ dy + y < canvasHeight then
            let i : Nat := ((((dy + y) * canvasWidth + (dx + x)) * 4 : Int)).toNat
            let j : Nat := (y * dataWidth + x) * 4
            (((canvasPixels.set i (clampByte (data.getD j 0))).set
              (i + 1) (clampByte (data.getD (j + 1) 0))).set
              (i + 2) (clampByte (data.getD (j + 2) 0))).set
              (i + 3) (clampByte (data.getD (j + 3) 0))
          else
            canvasPixels)
        canvasPixels)
    canvasPixels

/-! ## The smear engine: `handleMouseMove` -/

/-- The mirrored position (lines 290-294). -/
def mirroredPoint (canvasWidth canvasHeight : Nat) (mouseX mouseY : ℚ) : ℚ × ℚ :=
  let canvasCenterX : ℚ := (canvasWidth : ℚ) / 2
  let canvasCenterY : ℚ := (canvasHeight : ℚ) / 2
  let mirroredX := canvasCenterX + (canvasCenterX - mouseX)
  let mirroredY := canvasCenterY + (canvasCenterY - mouseY)
  (mirroredX, mirroredY)

/-- The effect rectangle. -/
structure Area where
  areaX : Int
  areaY : Int
  areaWidth : Int
  areaHeight : Int
  deriving DecidableEq

/-- The area to apply the effect to (lines 298-301). -/
def effectArea (canvasWidth canvasHeight : Nat) (mirroredX mirroredY : ℚ) : Area :=
  let areaX : Int := max 0 ⌊mirroredX - (effectAreaSize : ℚ) / 2⌋
  let areaY : Int := max 0 ⌊mirroredY - (effectAreaSize : ℚ) / 2⌋
  let areaWidth : Int := min effectAreaSize ((canvasWidth : Int) - areaX)
  let areaHeight : Int := min effectAreaSize ((canvasHeight : Int) - areaY)
  { areaX := areaX, areaY := areaY, areaWidth := areaWidth, areaHeight := areaHeight }

/-- The arguments of one `copyBlock` call of the smear loop. -/
structure BlockArgs where
  srcX : Int
  srcY : Int
  clampedDestX : Int
  clampedDestY : Int
  actualBlockWidth : Int
  actualBlockHeight : Int
  deriving DecidableEq

/-- The computation of one iteration of the smear loop (lines 339-364);
`r1 .. r6` are the six values of `Math.random()` in the order drawn. -/
def smearBlockArgs (currentAreaWidth currentAreaHeight : Int) (smearDirX smearDirY : ℚ)
    (r1 r2 r3 r4 r5 r6 : ℚ) : BlockArgs :=
  let blockWidth : Int :=
    ⌊r1 * ((maxSmearBlockSize - minSmearBlockSize + 1 : Int) : ℚ)⌋ + minSmearBlockSize
  let blockHeight : Int :=
    ⌊r2 * ((maxSmearBlockSize - minSmearBlockSize + 1 : Int) : ℚ)⌋ + minSmearBlockSize
  let actualBlockWidth : Int := max 1 (min blockWidth currentAreaWidth)
  let actualBlockHeight : Int := max 1 (min blockHeight currentAreaHeight)
  let srcX : Int := ⌊r3 * ((max 1 (currentAreaWidth - actualBlockWidth + 1) : Int) : ℚ)⌋
  let srcY : Int := ⌊r4 * ((max 1 (currentAreaHeight - actualBlockHeight + 1) : Int) : ℚ)⌋
  let destX : ℚ := (srcX : ℚ) + smearDirX * blockSmearDistance
  let destY : ℚ := (srcY : ℚ) + smearDirY * blockSmearDistance
  let destX : ℚ := destX + (r5 - 1 / 2) * blockSmearRandomness
  let destY : ℚ := destY + (r6 - 1 / 2) * blockSmearRandomness
  let clampedDestX : Int := max 0 (min (currentAreaWidth - actualBlockWidth) ⌊destX⌋)
  let clampedDestY : Int := max 0 (min (currentAreaHeight - actualBlockHeight) ⌊destY⌋)
  { srcX := srcX, srcY := srcY, clampedDestX := clampedDestX, clampedDestY := clampedDestY,
    actualBlockWidth := actualBlockWidth, actualBlockHeight := actualBlockHeight }

/-- One iteration of the smear loop (lines 337-368) on the state and the
area's pixel buffer: six random draws, then `copyBlock`. -/
def smearStep (currentAreaWidth currentAreaHeight : Int) (smearDirX smearDirY : ℚ)
    (acc : State × List Nat) (_i : Nat) : State × List Nat :=
  let s := acc.1
  let areaPixels := acc.2
  let (r1, s) := s.nextRandom
  let (r2, s) := s.nextRandom
  let (r3, s) := s.nextRandom
  let (r4, s) := s.nextRandom
  let (r5, s) := s.nextRandom
  let (r6, s) := s.nextRandom
  let a := smearBlockArgs currentAreaWidth currentAreaHeight smearDirX smearDirY
    r1 r2 r3 r4 r5 r6
  (s, copyBlock areaPixels currentAreaWidth.toNat currentAreaHeight.toNat a.srcX a.srcY
    a.clampedDestX a.clampedDestY a.actualBlockWidth.toNat a.actualBlockHeight.toNat)

/-- The gain target of the speed tracking (line 380). -/
def gainValue (moveMagnitude : ℚ) : ℚ :=
  let gainSensitivity : ℚ := 30
  min (4 / 10) (moveMagnitude / gainSensitivity)

/-- The function `handleMouseMove` (lines 245-383) for an event whose
canvas-local position is `(mouseX, mouseY)`.  An error is an uncaught
`TypeError`. -/
def handleMouseMove (sqrt : ℚ → ℚ) (s : State) (mouseX mouseY : ℚ) : Except String State :=
  if s.uploadedImage = false then Except.ok s
  else
    match s.lastMouseX, s.lastMouseY with
    | some lastMouseX, some lastMouseY =>
      let moveX := mouseX - lastMouseX
      let moveY := mouseY - lastMouseY
      let s := { s with lastMouseX := some mouseX, lastMouseY := some mouseY }
      let moveMagnitude := sqrt (moveX * moveX + moveY * moveY)
      if moveMagnitude < 1 then
        if s.audioContext ≠ none ∧ s.gainNode = true then
          Except.ok (s.audio (AudioCall.gainLinearRampToValueAtTime 0 (1 / 10)))
        else
          Except.ok s
      else
        let s := handleDirectionChange s (moveX, moveY)
        let m := mirroredPoint s.canvasWidth s.canvasHeight mouseX mouseY
        let area := effectArea s.canvasWidth s.canvasHeight m.1 m.2
        if area.areaWidth ≤ 0 ∨ area.areaHeight ≤ 0 then Except.ok s
        else
          let s := s.canvas (CanvasCall.getImageData area.areaX area.areaY
            area.areaWidth area.areaHeight)
          let areaPixels := getImageData s.canvasWidth s.canvasHeight s.canvasPixels
            area.areaX area.areaY area.areaWidth.toNat area.areaHeight.toNat
          let currentAreaWidth := area.areaWidth
          let currentAreaHeight := area.areaHeight
          let smearDirX : ℚ := if moveMagnitude > 0 then -(moveX / moveMagnitude) else 0
          let smearDirY : ℚ := if moveMagnitude > 0 then -(moveY / moveMagnitude) else 0
          let r := (List.range numberOfSmearBlocks).foldl
            (smearStep currentAreaWidth currentAreaHeight smearDirX smearDirY) (s, areaPixels)
          let s := r.1
          let areaPixels := r.2
          let s := s.canvas (CanvasCall.putImageData area.areaX area.areaY)
          let written := putImageData s.canvasWidth s.canvasHeight s.canvasPixels areaPixels
            currentAreaWidth.toNat currentAreaHeight.toNat area.areaX area.areaY
          let s := { s with canvasPixels := written }
          if s.audioContext = some AudioContextState.running ∧ s.uploadedImage = true then
            if s.gainNode = true then
              Except.ok (s.audio
                (AudioCall.gainLinearRampToValueAtTime (gainValue moveMagnitude) (5 / 100)))
            else
              Except.error "TypeError: gainNode is null"
          else
            Except.ok s
    | _, _ =>
      Except.ok { s with lastMouseX := some mouseX, lastMouseY := some mouseY }

/-! ## Vocabulary of the proofs -/
/-- A sequence of stores `buf[i] = v`, performed left to right. -/
def applyWrites (buf : List Nat) (ws : List (Nat × Nat)) : List Nat :=
  ws.foldl (fun b w => b.set w.1 w.2) buf

/-- The byte that the first pair of loops of `copyBlock` leaves in channel
`k` of the temporary pixel of block offset `(x, y)`. -/
def srcValue (pixels : List Nat) (dataWidth : Nat) (srcX srcY : Int) (y x k : Nat) : Nat :=
  if 0 ≤ ((srcY + y) * dataWidth + (srcX + x)) * 4 ∧
      ((srcY + y) * dataWidth + (srcX + x)) * 4 + 3 < pixels.length then
    clampByte (pixels.getD ((((srcY + y) * dataWidth + (srcX + x)) * 4).toNat + k) 0)
  else 0

/-- The four stores of `readStep` at block offset `(x, y)`. -/
def readWrites (pixels : List Nat) (dataWidth : Nat) (srcX srcY : Int) (blockWidth : Nat)
    (y x : Nat) : List (Nat × Nat) :=
  (List.range 4).map fun k => ((y * blockWidth + x) * 4 + k, srcValue pixels dataWidth srcX srcY y x k)

/-- The stores of `writeStep` at block offset `(x, y)` into an array of
length `len`: four when the destination index passes the bounds check, none
otherwise. -/
def writeWrites (tempBlockData : List Nat) (dataWidth : Nat) (destX destY : Int)
    (blockWidth : Nat) (len : Nat) (y x : Nat) : List (Nat × Nat) :=
  if 0 ≤ ((destY + y) * dataWidth + (destX + x)) * 4 ∧
      ((destY + y) * dataWidth + (destX + x)) * 4 + 3 < len then
    (List.range 4).map fun k =>
      ((((destY + y) * dataWidth + (destX + x)) * 4).toNat + k,
        clampByte (tempBlockData.getD ((y * blockWidth + x) * 4 + k) 0))
  else []

/-- A call on the gain parameter targets a value in `[0, 0.4]`; calls on the
frequency parameter are unconstrained. -/
def gainSafe (c : AudioCall) : Prop :=
  match c with
  | AudioCall.gainSetValueAtTime v _ => 0 ≤ v ∧ v ≤ 4 / 10
  | AudioCall.gainLinearRampToValueAtTime v _ => 0 ≤ v ∧ v ≤ 4 / 10
  | _ => True

/-- The calls scheduled by one direction transition (lines 85-100), for the
base frequency and the three random draws of the pitch jumps. -/
def pulseCalls (baseFrequency r0 r1 r2 : ℚ) : List AudioCall :=
  [AudioCall.frequencySetValueAtTime baseFrequency 0,
   AudioCall.frequencyLinearRampToValueAtTime (max 30 (baseFrequency + (r0 - 1 / 2) * 80))
     (1 * (8 / 100 / 3)),
   AudioCall.frequencyLinearRampToValueAtTime (max 30 (baseFrequency + (r1 - 1 / 2) * 80))
     (2 * (8 / 100 / 3)),
   AudioCall.frequencyLinearRampToValueAtTime (max 30 (baseFrequency + (r2 - 1 / 2) * 80))
     (3 * (8 / 100 / 3)),
   AudioCall.frequencyLinearRampToValueAtTime baseFrequency (8 / 100 + 5 / 100),
   AudioCall.gainSetValueAtTime (4 / 10) 0,
   AudioCall.gainLinearRampToValueAtTime 0 (8 / 100 + 1 / 10)]

/-- The state after a direction transition to `dir`. -/
def afterTransition (s : State) (dir : Int × Int) : State :=
  { s with
    lastMoveDirection := dir
    currentGlitchFrequencyIndex := (s.currentGlitchFrequencyIndex + 1) % glitchFrequencies.length
    randomCursor := s.randomCursor + 3
    audioCalls := s.audioCalls ++
      pulseCalls
        (glitchFrequencies.getD
          ((s.currentGlitchFrequencyIndex + 1) % glitchFrequencies.length) 0)
        (s.random s.randomCursor) (s.random (s.randomCursor + 1))
        (s.random (s.randomCursor + 2)) }

/-- An image has been loaded on a 2 x 2 canvas and the pointer has been
sampled at `(10, 10)`; no audio context has been created and nothing has been
scheduled or drawn by the handlers yet. -/
def loadedState : State where
  uploadedImage := true
  lastMouseX := some 10
  lastMouseY := some 10
  lastMoveDirection := (0, 0)
  currentGlitchFrequencyIndex := 0
  audioContext := none
  oscillator := false
  gainNode := false
  canvasWidth := 2
  canvasHeight := 2
  canvasPixels := [1, 2, 3, 255, 4, 5, 6, 255, 7, 8, 9, 255, 10, 11, 12, 255]
  random := fun _ => 1 / 2
  randomCursor := 0
  audioCalls := []
  canvasCalls := []

/-- The state `loadedState` after `initAudio` has created an audio context
that is in state `st`. -/
def audioState (st : AudioContextState) : State :=
  initAudio loadedState (some st)

/-- The effect rectangle of a pointer position on a canvas. -/
def effectAreaAt (canvasWidth canvasHeight : Nat) (mouseX mouseY : ℚ) : Area :=
  effectArea canvasWidth canvasHeight
    (mirroredPoint canvasWidth canvasHeight mouseX mouseY).1
    (mirroredPoint canvasWidth canvasHeight mouseX mouseY).2

/-- The block of a `copyBlock` call lies inside a `W x H` region, at the
source and at the destination, and is at least 1 x 1. -/
def BlockArgs.fitsRegion (a : BlockArgs) (W H : Int) : Prop :=
  (1 ≤ a.actualBlockWidth ∧ a.actualBlockWidth ≤ W ∧
    0 ≤ a.srcX ∧ a.srcX + a.actualBlockWidth ≤ W ∧
    0 ≤ a.clampedDestX ∧ a.clampedDestX + a.actualBlockWidth ≤ W) ∧
  (1 ≤ a.actualBlockHeight ∧ a.actualBlockHeight ≤ H ∧
    0 ≤ a.srcY ∧ a.srcY + a.actualBlockHeight ≤ H ∧
    0 ≤ a.clampedDestY ∧ a.clampedDestY + a.actualBlockHeight ≤ H)

/-! ## Stores performed left to right -/

theorem applyWrites_nil (buf : List Nat) : applyWrites buf [] = buf := rfl

theorem applyWrites_cons (buf : List Nat) (w : Nat × Nat) (ws : List (Nat × Nat)) :
    applyWrites buf (w :: ws) = applyWrites (buf.set w.1 w.2) ws := rfl

theorem applyWrites_append (buf : List Nat) (ws ws2 : List (Nat × Nat)) :
    applyWrites buf (ws ++ ws2) = applyWrites (applyWrites buf ws) ws2 := by
  simp [applyWrites, List.foldl_append]

theorem length_applyWrites (ws : List (Nat × Nat)) :
    ∀ buf : List Nat, (applyWrites buf ws).length = buf.length := by
  induction ws with
  | nil => intro buf; rfl
  | cons w ws ih => intro buf; rw [applyWrites_cons, ih]; simp

theorem getD_set_self_of_lt (buf : List Nat) (j v : Nat) (hj : j < buf.length) :
    (buf.set j v).getD j 0 = v := by
  simp [List.getElem?_set, hj]

theorem getD_set_of_ne (buf : List Nat) (i j v : Nat) (h : i ≠ j) :
    (buf.set i v).getD j 0 = buf.getD j 0 := by
  simp [List.getElem?_set_ne h]

theorem getD_applyWrites_of_not_mem (ws : List (Nat × Nat)) (j : Nat) :
    ∀ buf : List Nat, (∀ w ∈ ws, w.1 ≠ j) → (applyWrites buf ws).getD j 0 = buf.getD j 0 := by
  induction ws with
  | nil => intro buf _; rfl
  | cons w ws ih =>
    intro buf h
    rw [applyWrites_cons, ih _ (fun u hu => h u (List.mem_cons_of_mem _ hu))]
    exact getD_set_of_ne buf w.1 j w.2 (h w (List.mem_cons_self _ _))

theorem getD_applyWrites_of_mem (ws : List (Nat × Nat)) (j v : Nat) :
    ∀ buf : List Nat, j < buf.length → (∃ w ∈ ws, w.1 = j) →
      (∀ w ∈ ws, w.1 = j → w.2 = v) → (applyWrites buf ws).getD j 0 = v := by
  induction ws with
  | nil => intro buf _ hex _; obtain ⟨w, hw, _⟩ := hex; cases hw
  | cons w ws ih =>
    intro buf hj hex hall
    rw [applyWrites_cons]
    by_cases htail : ∃ u ∈ ws, u.1 = j
    · exact ih _ (by simpa using hj) htail (fun u hu => hall u (List.mem_cons_of_mem _ hu))
    · have hw : w.1 = j := by
        obtain ⟨u, hu, huj⟩ := hex
        rcases List.mem_cons.mp hu with rfl | hu2
        · exact huj
        · exact absurd ⟨u, hu2, huj⟩ htail
      have hv : w.2 = v := hall w (List.mem_cons_self _ _) hw
      rw [getD_applyWrites_of_not_mem ws j _ (fun u hu huj => htail ⟨u, hu, huj⟩), hw, hv]
      exact getD_set_self_of_lt buf j v hj

theorem foldl_eq_applyWrites {ι : Type} (body : List Nat → ι → List Nat)
    (w : ι → List (Nat × Nat)) (L : Nat)
    (h : ∀ b i, b.length = L → body b i = applyWrites b (w i)) :
    ∀ (items : List ι) (b : List Nat), b.length = L →
      items.foldl body b = applyWrites b (items.flatMap w) := by
  intro items
  induction items with
  | nil => intro b _; rfl
  | cons i items ih =>
    intro b hb
    rw [List.foldl_cons, List.flatMap_cons, applyWrites_append, h b i hb]
    exact ih _ (by rw [length_applyWrites, hb])

/-! ## Index arithmetic -/

theorem row_col_inj {w a b c d : Nat} (hb : b < w) (hd : d < w)
    (h : a * w + b = c * w + d) : a = c ∧ b = d := by
  have key : a = c := by
    rcases Nat.lt_trichotomy a c with hlt | heq | hgt
    · have := Nat.mul_le_mul_right w (Nat.succ_le_of_lt hlt)
      rw [Nat.succ_mul] at this
      omega
    · exact heq
    · have := Nat.mul_le_mul_right w (Nat.succ_le_of_lt hgt)
      rw [Nat.succ_mul] at this
      omega
  subst key
  exact ⟨rfl, by omega⟩

theorem cell_lt {w h r c : Nat} (hr : r < h) (hc : c < w) : (r * w + c) * 4 + 3 < w * h * 4 := by
  have := Nat.mul_le_mul_right w (Nat.succ_le_of_lt hr)
  rw [Nat.succ_mul, Nat.mul_comm h w] at this
  omega

/-! ## `copyBlock` -/

theorem range_four : List.range 4 = [0, 1, 2, 3] := by decide

theorem readStep_eq (pixels : List Nat) (dataWidth : Nat) (srcX srcY : Int) (blockWidth : Nat)
    (temp : List Nat) (y x : Nat) :
    readStep pixels dataWidth srcX srcY blockWidth temp y x
      = applyWrites temp (readWrites pixels dataWidth srcX srcY blockWidth y x) := by
  unfold readStep readWrites srcValue
  rw [range_four]
  by_cases h : 0 ≤ ((srcY + y) * dataWidth + (srcX + x)) * 4 ∧
      ((srcY + y) * dataWidth + (srcX + x)) * 4 + 3 < pixels.length
  · simp only [h, and_self, if_true, List.map, applyWrites, List.foldl, Nat.add_zero]
  · simp only [h, if_false, List.map, applyWrites, List.foldl, Nat.add_zero]
    rfl

theorem writeStep_eq (temp : List Nat) (dataWidth : Nat) (destX destY : Int) (blockWidth : Nat)
    (pixels : List Nat) (y x : Nat) :
    writeStep temp dataWidth destX destY blockWidth pixels y x
      = applyWrites pixels (writeWrites temp dataWidth destX destY blockWidth pixels.length y x) := by
  unfold writeStep writeWrites
  rw [range_four]
  by_cases h : 0 ≤ ((destY + y) * dataWidth + (destX + x)) * 4 ∧
      ((destY + y) * dataWidth + (destX + x)) * 4 + 3 < pixels.length
  · simp only [h, and_self, if_true, List.map, applyWrites, List.foldl, Nat.add_zero]
  · simp only [h, if_false, applyWrites, List.foldl]

theorem fillTemp_eq (pixels : List Nat) (dataWidth : Nat) (srcX srcY : Int)
    (blockWidth blockHeight : Nat) :
    fillTemp pixels dataWidth srcX srcY blockWidth blockHeight
      = applyWrites (List.replicate (blockWidth * blockHeight * 4) 0)
          ((List.range blockHeight).flatMap fun y =>
            (List.range blockWidth).flatMap fun x =>
              readWrites pixels dataWidth srcX srcY blockWidth y x) := by
  unfold fillTemp
  refine foldl_eq_applyWrites _ _ (blockWidth * blockHeight * 4) ?_ _ _ (by simp)
  intro b y hb
  exact foldl_eq_applyWrites _ _ (blockWidth * blockHeight * 4)
    (fun b x _ => readStep_eq pixels dataWidth srcX srcY blockWidth b y x) _ _ hb

theorem copyBlock_eq (pixels : List Nat) (dataWidth dataHeight : Nat)
    (srcX srcY destX destY : Int) (blockWidth blockHeight : Nat) :
    copyBlock pixels dataWidth dataHeight srcX srcY destX destY blockWidth blockHeight
      = applyWrites pixels
          ((List.range blockHeight).flatMap fun y =>
            (List.range blockWidth).flatMap fun x =>
              writeWrites (fillTemp pixels dataWidth srcX srcY blockWidth blockHeight)
                dataWidth destX destY blockWidth pixels.length y x) := by
  unfold copyBlock
  refine foldl_eq_applyWrites _ _ pixels.length ?_ _ _ rfl
  intro b y hb
  refine foldl_eq_applyWrites _ _ pixels.length ?_ _ _ hb
  intro b x hb
  rw [writeStep_eq, hb]

theorem length_copyBlock (pixels : List Nat) (dataWidth dataHeight : Nat)
    (srcX srcY destX destY : Int) (blockWidth blockHeight : Nat) :
    (copyBlock pixels dataWidth dataHeight srcX srcY destX destY blockWidth blockHeight).length
      = pixels.length := by
  rw [copyBlock_eq, length_applyWrites]

theorem fillTemp_getD (pixels : List Nat) (dataWidth : Nat) (srcX srcY : Int)
    (blockWidth blockHeight : Nat) (y x k : Nat) (hy : y < blockHeight) (hx : x < blockWidth)
    (hk : k < 4) :
    (fillTemp pixels dataWidth srcX srcY blockWidth blockHeight).getD
        ((y * blockWidth + x) * 4 + k) 0
      = srcValue pixels dataWidth srcX srcY y x k := by
  rw [fillTemp_eq]
  apply getD_applyWrites_of_mem
  · have := cell_lt (w := blockWidth) hy hx
    simp only [List.length_replicate]
    omega
  · refine ⟨((y * blockWidth + x) * 4 + k, srcValue pixels dataWidth srcX srcY y x k), ?_, rfl⟩
    simp only [List.mem_flatMap, List.mem_range, readWrites, List.mem_map]
    exact ⟨y, hy, x, hx, k, hk, rfl⟩
  · intro w hw hj
    simp only [List.mem_flatMap, List.mem_range, readWrites, List.mem_map] at hw
    obtain ⟨y', _, x', hx', k', hk', rfl⟩ := hw
    simp only at hj
    have h1 : y' * blockWidth + x' = y * blockWidth + x := by omega
    have h2 : k' = k := by omega
    obtain ⟨rfl, rfl⟩ := row_col_inj hx' hx h1
    subst h2
    rfl


theorem destIndex_cast (dX dY dw x y : Nat) :
    ((((dY : Int) + y) * dw + ((dX : Int) + x)) * 4)
      = ((((dY + y) * dw + (dX + x)) * 4 : Nat) : Int) := by
  push_cast; ring

theorem copyBlock_getD_untouched (pixels : List Nat) (dataWidth dataHeight : Nat)
    (srcX srcY destX destY : Int) (blockWidth blockHeight : Nat) (j : Nat)
    (h : ∀ y x k, y < blockHeight → x < blockWidth → k < 4 →
      0 ≤ ((destY + y) * dataWidth + (destX + x)) * 4 →
      (((destY + y) * dataWidth + (destX + x)) * 4).toNat + k ≠ j) :
    (copyBlock pixels dataWidth dataHeight srcX srcY destX destY blockWidth blockHeight).getD j 0
      = pixels.getD j 0 := by
  rw [copyBlock_eq]
  apply getD_applyWrites_of_not_mem
  intro w hw
  simp only [List.mem_flatMap, List.mem_range, writeWrites] at hw
  obtain ⟨y, hy, x, hx, hw⟩ := hw
  split at hw
  · rename_i hg
    simp only [List.mem_map, List.mem_range] at hw
    obtain ⟨k, hk, rfl⟩ := hw
    exact h y x k hy hx hk hg.1
  · cases hw

theorem copyBlock_getD_dest (pixels : List Nat) (dataWidth dataHeight : Nat)
    (srcX srcY : Int) (dX dY : Nat) (blockWidth blockHeight : Nat)
    (hlen : pixels.length = dataWidth * dataHeight * 4)
    (hdx : dX + blockWidth ≤ dataWidth) (hdy : dY + blockHeight ≤ dataHeight)
    (y x k : Nat) (hy : y < blockHeight) (hx : x < blockWidth) (hk : k < 4) :
    (copyBlock pixels dataWidth dataHeight srcX srcY dX dY blockWidth blockHeight).getD
        (((dY + y) * dataWidth + (dX + x)) * 4 + k) 0
      = clampByte (srcValue pixels dataWidth srcX srcY y x k) := by
  rw [copyBlock_eq]
  have hcell := cell_lt (w := dataWidth) (h := dataHeight) (r := dY + y) (c := dX + x)
    (by omega) (by omega)
  apply getD_applyWrites_of_mem
  · omega
  · refine ⟨(((dY + y) * dataWidth + (dX + x)) * 4 + k,
      clampByte (srcValue pixels dataWidth srcX srcY y x k)), ?_, rfl⟩
    simp only [List.mem_flatMap, List.mem_range, writeWrites]
    refine ⟨y, hy, x, hx, ?_⟩
    rw [destIndex_cast, if_pos (by constructor <;> omega), Int.toNat_ofNat]
    simp only [List.mem_map, List.mem_range]
    exact ⟨k, hk, by rw [fillTemp_getD _ _ _ _ _ _ _ _ _ hy hx hk]⟩
  · intro w hw hj
    simp only [List.mem_flatMap, List.mem_range, writeWrites] at hw
    obtain ⟨y', hy', x', hx', hw⟩ := hw
    rw [destIndex_cast] at hw
    split at hw
    · simp only [List.mem_map, List.mem_range, Int.toNat_ofNat] at hw
      obtain ⟨k', hk', rfl⟩ := hw
      simp only at hj
      have h1 : (dY + y') * dataWidth + (dX + x') = (dY + y) * dataWidth + (dX + x) := by omega
      have h2 : k' = k := by omega
      obtain ⟨h3, h4⟩ := row_col_inj (by omega) (by omega) h1
      have h5 : y' = y := by omega
      have h6 : x' = x := by omega
      subst h2 h5 h6
      simp only
      rw [fillTemp_getD _ _ _ _ _ _ _ _ _ hy hx hk]
    · cases hw

theorem pixelAt_cast (buf : List Nat) (dw r c : Nat) :
    pixelAt buf dw (c : Int) (r : Int)
      = [buf.getD ((r * dw + c) * 4) 0, buf.getD ((r * dw + c) * 4 + 1) 0,
         buf.getD ((r * dw + c) * 4 + 2) 0, buf.getD ((r * dw + c) * 4 + 3) 0] := by
  unfold pixelAt
  have : (((r : Int) * dw + c) * 4) = (((r * dw + c) * 4 : Nat) : Int) := by push_cast; ring
  simp only [this, Int.toNat_ofNat]

theorem clampByte_of_le {v : Nat} (h : v ≤ 255) : clampByte v = v := by
  unfold clampByte; omega

theorem getD_le_of_bytes (pixels : List Nat) (hb : ∀ v ∈ pixels, v ≤ 255) (i : Nat) :
    pixels.getD i 0 ≤ 255 := by
  by_cases hi : i < pixels.length
  · rw [List.getD_eq_getElem _ _ hi]
    exact hb _ (List.getElem_mem _)
  · rw [List.getD_eq_default _ _ (by omega)]
    omega


theorem pixelAt_copyBlock_dest (pixels : List Nat) (dataWidth dataHeight : Nat)
    (srcX srcY destX destY : Int) (blockWidth blockHeight : Nat)
    (hlen : pixels.length = dataWidth * dataHeight * 4)
    (hdx : 0 ≤ destX) (hdx2 : destX + blockWidth ≤ dataWidth)
    (hdy : 0 ≤ destY) (hdy2 : destY + blockHeight ≤ dataHeight)
    (x y : Nat) (hx : x < blockWidth) (hy : y < blockHeight) :
    pixelAt (copyBlock pixels dataWidth dataHeight srcX srcY destX destY blockWidth blockHeight)
        dataWidth (destX + x) (destY + y)
      = [clampByte (srcValue pixels dataWidth srcX srcY y x 0),
         clampByte (srcValue pixels dataWidth srcX srcY y x 1),
         clampByte (srcValue pixels dataWidth srcX srcY y x 2),
         clampByte (srcValue pixels dataWidth srcX srcY y x 3)] := by
  lift destX to ℕ using hdx with dX
  lift destY to ℕ using hdy with dY
  have hdx3 : dX + blockWidth ≤ dataWidth := by exact_mod_cast hdx2
  have hdy3 : dY + blockHeight ≤ dataHeight := by exact_mod_cast hdy2
  rw [← Nat.cast_add, ← Nat.cast_add, pixelAt_cast]
  have h := copyBlock_getD_dest pixels dataWidth dataHeight srcX srcY dX dY blockWidth
    blockHeight hlen hdx3 hdy3 y x
  rw [← h 1 hy hx (by decide), ← h 2 hy hx (by decide), ← h 3 hy hx (by decide),
    ← h 0 hy hx (by decide)]
  rfl

/-- C1: `copyBlock` is overlap-safe.  For a byte buffer of length
`dataWidth * dataHeight * 4` and source and destination rectangles of size
`blockWidth x blockHeight` inside the buffer (overlapping or not), every
destination pixel `(destX + x, destY + y)` holds after the call the four bytes
that the source pixel `(srcX + x, srcY + y)` held before the call. -/
theorem copyBlock_overlap_safe (pixels : List Nat) (dataWidth dataHeight : Nat)
    (srcX srcY destX destY : Int) (blockWidth blockHeight : Nat)
    (hlen : pixels.length = dataWidth * dataHeight * 4)
    (hbytes : ∀ v ∈ pixels, v ≤ 255)
    (hsx : 0 ≤ srcX) (hsx2 : srcX + blockWidth ≤ dataWidth)
    (hsy : 0 ≤ srcY) (hsy2 : srcY + blockHeight ≤ dataHeight)
    (hdx : 0 ≤ destX) (hdx2 : destX + blockWidth ≤ dataWidth)
    (hdy : 0 ≤ destY) (hdy2 : destY + blockHeight ≤ dataHeight) :
    ∀ x y : Nat, x < blockWidth → y < blockHeight →
      pixelAt (copyBlock pixels dataWidth dataHeight srcX srcY destX destY blockWidth blockHeight)
          dataWidth (destX + x) (destY + y)
        = pixelAt pixels dataWidth (srcX + x) (srcY + y) := by
  intro x y hx hy
  rw [pixelAt_copyBlock_dest pixels dataWidth dataHeight srcX srcY destX destY blockWidth
    blockHeight hlen hdx hdx2 hdy hdy2 x y hx hy]
  lift srcX to ℕ using hsx with sX
  lift srcY to ℕ using hsy with sY
  have hsx3 : sX + blockWidth ≤ dataWidth := by exact_mod_cast hsx2
  have hsy3 : sY + blockHeight ≤ dataHeight := by exact_mod_cast hsy2
  have hcell := cell_lt (w := dataWidth) (h := dataHeight) (r := sY + y) (c := sX + x)
    (by omega) (by omega)
  have hval : ∀ k, k < 4 → clampByte (srcValue pixels dataWidth sX sY y x k)
      = pixels.getD (((sY + y) * dataWidth + (sX + x)) * 4 + k) 0 := by
    intro k _
    unfold srcValue
    rw [destIndex_cast, if_pos (by constructor <;> omega), Int.toNat_ofNat,
      clampByte_of_le (getD_le_of_bytes pixels hbytes _),
      clampByte_of_le (getD_le_of_bytes pixels hbytes _)]
  rw [← Nat.cast_add, ← Nat.cast_add, pixelAt_cast, hval 0 (by decide), hval 1 (by decide),
    hval 2 (by decide), hval 3 (by decide)]
  rfl

theorem copyBlock_overlap_safe_witness :
    pixelAt (copyBlock [1, 2, 3, 4, 5, 6, 7, 8, 9, 10, 11, 12] 3 1 0 0 1 0 2 1) 3
        ((1 : Int) + (1 : Nat)) ((0 : Int) + (0 : Nat))
      = pixelAt [1, 2, 3, 4, 5, 6, 7, 8, 9, 10, 11, 12] 3 ((0 : Int) + (1 : Nat))
        ((0 : Int) + (0 : Nat)) :=
  copyBlock_overlap_safe [1, 2, 3, 4, 5, 6, 7, 8, 9, 10, 11, 12] 3 1 0 0 1 0 2 1
    (by decide) (by decide) (by decide) (by decide) (by decide) (by decide) (by decide)
    (by decide) (by decide) (by decide) 1 0 (by decide) (by decide)

/-- C7, as stated, fails: on a 2 x 2 buffer of 16 bytes, a 2 x 1 block read
at `(1, 0)` and written at `(0, 0)` (an in-bounds destination) has its offset
`(1, 0)` sourced from column `2`, outside the buffer, yet the destination
pixel `(1, 0)` receives the bytes of pixel `(0, 1)` (byte index 8 is inside
the array) and not `(0, 0, 0, 0)`. -/
theorem copyBlock_zero_fill_counterexample :
    [1, 2, 3, 4, 5, 6, 7, 8, 9, 10, 11, 12, 13, 14, 15, 16].length = 2 * 2 * 4 ∧
    ((0 : Int) ≤ 0 ∧ (0 : Int) + (2 : Nat) ≤ (2 : Nat) ∧ (0 : Int) + (1 : Nat) ≤ (2 : Nat)) ∧
    ((2 : Nat) ≤ (1 : Int) + (1 : Nat)) ∧
    pixelAt (copyBlock [1, 2, 3, 4, 5, 6, 7, 8, 9, 10, 11, 12, 13, 14, 15, 16] 2 2 1 0 0 0 2 1)
        2 ((0 : Int) + (1 : Nat)) ((0 : Int) + (0 : Nat)) = [9, 10, 11, 12] ∧
    pixelAt (copyBlock [1, 2, 3, 4, 5, 6, 7, 8, 9, 10, 11, 12, 13, 14, 15, 16] 2 2 1 0 0 0 2 1)
        2 ((0 : Int) + (1 : Nat)) ((0 : Int) + (0 : Nat)) ≠ [0, 0, 0, 0] := by
  decide

/-- C7 (amended): for an in-bounds destination rectangle, every block offset
`(x, y)` whose source byte index `((srcY + y) * dataWidth + (srcX + x)) * 4`
fails the bounds check of the code (it is negative, or the index plus 3 is
not below the array length) has its destination pixel set to `(0, 0, 0, 0)`.
`copyBlock` is a total function: no access fails. -/
theorem copyBlock_zero_fill (pixels : List Nat) (dataWidth dataHeight : Nat)
    (srcX srcY destX destY : Int) (blockWidth blockHeight : Nat)
    (hlen : pixels.length = dataWidth * dataHeight * 4)
    (hdx : 0 ≤ destX) (hdx2 : destX + blockWidth ≤ dataWidth)
    (hdy : 0 ≤ destY) (hdy2 : destY + blockHeight ≤ dataHeight)
    (x y : Nat) (hx : x < blockWidth) (hy : y < blockHeight)
    (hsrc : ((srcY + y) * dataWidth + (srcX + x)) * 4 < 0 ∨
      (pixels.length : Int) ≤ ((srcY + y) * dataWidth + (srcX + x)) * 4 + 3) :
    pixelAt (copyBlock pixels dataWidth dataHeight srcX srcY destX destY blockWidth blockHeight)
        dataWidth (destX + x) (destY + y) = [0, 0, 0, 0] := by
  rw [pixelAt_copyBlock_dest pixels dataWidth dataHeight srcX srcY destX destY blockWidth
    blockHeight hlen hdx hdx2 hdy hdy2 x y hx hy]
  have hval : ∀ k, srcValue pixels dataWidth srcX srcY y x k = 0 := by
    intro k
    unfold srcValue
    rw [if_neg (by omega)]
  simp only [hval]
  rfl

theorem copyBlock_zero_fill_witness :
    pixelAt (copyBlock [1, 2, 3, 4, 5, 6, 7, 8, 9, 10, 11, 12, 13, 14, 15, 16] 2 2 1 1 0 0 2 1)
        2 ((0 : Int) + (1 : Nat)) ((0 : Int) + (0 : Nat)) = [0, 0, 0, 0] :=
  copyBlock_zero_fill [1, 2, 3, 4, 5, 6, 7, 8, 9, 10, 11, 12, 13, 14, 15, 16] 2 2 1 1 0 0 2 1
    (by decide) (by decide) (by decide) (by decide) (by decide) 1 0 (by decide) (by decide)
    (by decide)

/-- C10: `copyBlock` changes nothing outside the destination rectangle.  For
a destination rectangle inside the `dataWidth x dataHeight` buffer, the buffer
keeps its length and every pixel `(px, py)` of the buffer outside
`[destX, destX + blockWidth) x [destY, destY + blockHeight)` keeps its four
bytes. -/
theorem copyBlock_frame (pixels : List Nat) (dataWidth dataHeight : Nat)
    (srcX srcY destX destY : Int) (blockWidth blockHeight : Nat)
    (hlen : pixels.length = dataWidth * dataHeight * 4)
    (hdx : 0 ≤ destX) (hdx2 : destX + blockWidth ≤ dataWidth)
    (hdy : 0 ≤ destY) (_hdy2 : destY + blockHeight ≤ dataHeight) :
    (copyBlock pixels dataWidth dataHeight srcX srcY destX destY blockWidth blockHeight).length
        = dataWidth * dataHeight * 4 ∧
    ∀ px py : Nat, px < dataWidth → py < dataHeight →
      ¬ (destX ≤ px ∧ (px : Int) < destX + blockWidth ∧
          destY ≤ py ∧ (py : Int) < destY + blockHeight) →
      pixelAt (copyBlock pixels dataWidth dataHeight srcX srcY destX destY blockWidth
          blockHeight) dataWidth px py
        = pixelAt pixels dataWidth px py := by
  refine ⟨by rw [length_copyBlock, hlen], ?_⟩
  intro px py hpx _ hout
  lift destX to ℕ using hdx with dX
  lift destY to ℕ using hdy with dY
  have hdx3 : dX + blockWidth ≤ dataWidth := by exact_mod_cast hdx2
  have key : ∀ c, c < 4 →
      (copyBlock pixels dataWidth dataHeight srcX srcY dX dY blockWidth blockHeight).getD
          ((py * dataWidth + px) * 4 + c) 0
        = pixels.getD ((py * dataWidth + px) * 4 + c) 0 := by
    intro c hc
    apply copyBlock_getD_untouched
    intro y x k hy hx hk _ heq
    rw [destIndex_cast, Int.toNat_ofNat] at heq
    have h1 : (dY + y) * dataWidth + (dX + x) = py * dataWidth + px := by omega
    obtain ⟨h2, h3⟩ := row_col_inj (by omega) hpx h1
    apply hout
    omega
  rw [pixelAt_cast, pixelAt_cast]
  have k0 := key 0 (by decide)
  rw [Nat.add_zero] at k0
  rw [k0, key 1 (by decide), key 2 (by decide), key 3 (by decide)]

theorem copyBlock_frame_witness :
    (copyBlock [1, 2, 3, 4, 5, 6, 7, 8, 9, 10, 11, 12] 3 1 0 0 1 0 2 1).length = 3 * 1 * 4 ∧
    pixelAt (copyBlock [1, 2, 3, 4, 5, 6, 7, 8, 9, 10, 11, 12] 3 1 0 0 1 0 2 1) 3
        ((0 : Nat) : Int) ((0 : Nat) : Int)
      = pixelAt [1, 2, 3, 4, 5, 6, 7, 8, 9, 10, 11, 12] 3 ((0 : Nat) : Int) ((0 : Nat) : Int) :=
  have h := copyBlock_frame [1, 2, 3, 4, 5, 6, 7, 8, 9, 10, 11, 12] 3 1 0 0 1 0 2 1
    (by decide) (by decide) (by decide) (by decide) (by decide)
  ⟨h.1, h.2 0 0 (by decide) (by decide) (by decide)⟩

/-! ## The smear loop -/

theorem floor_mul_range (r : ℚ) (n : Int) (hr0 : 0 ≤ r) (hr1 : r < 1) (hn : 1 ≤ n) :
    0 ≤ ⌊r * (n : ℚ)⌋ ∧ ⌊r * (n : ℚ)⌋ + 1 ≤ n := by
  have hnq : (0 : ℚ) < (n : ℚ) := by exact_mod_cast (by omega : (0 : Int) < n)
  constructor
  · exact Int.floor_nonneg.mpr (mul_nonneg hr0 hnq.le)
  · have : ⌊r * (n : ℚ)⌋ < n := by
      rw [Int.floor_lt]
      calc r * (n : ℚ) < 1 * (n : ℚ) := mul_lt_mul_of_pos_right hr1 hnq
        _ = (n : ℚ) := one_mul _
    omega

/-- C2: in the smear loop, for a region of integer width `W ≥ 1` and height
`H ≥ 1`, every smear direction and all six random draws in `[0, 1)`, the
arguments handed to `copyBlock` satisfy `1 ≤ actualBlockWidth ≤ W`,
`0 ≤ srcX`, `srcX + actualBlockWidth ≤ W`, `0 ≤ clampedDestX`,
`clampedDestX + actualBlockWidth ≤ W`, and the same for Y with `H`; regions
smaller than the minimum block size 60 are included. -/
theorem smearBlockArgs_within_region (W H : Int) (smearDirX smearDirY : ℚ)
    (r1 r2 r3 r4 r5 r6 : ℚ) (hW : 1 ≤ W) (hH : 1 ≤ H)
    (_h1 : 0 ≤ r1 ∧ r1 < 1) (_h2 : 0 ≤ r2 ∧ r2 < 1) (h3 : 0 ≤ r3 ∧ r3 < 1)
    (h4 : 0 ≤ r4 ∧ r4 < 1) (_h5 : 0 ≤ r5 ∧ r5 < 1) (_h6 : 0 ≤ r6 ∧ r6 < 1) :
    (smearBlockArgs W H smearDirX smearDirY r1 r2 r3 r4 r5 r6).fitsRegion W H := by
  simp only [BlockArgs.fitsRegion, smearBlockArgs]
  generalize ⌊r1 * ((maxSmearBlockSize - minSmearBlockSize + 1 : Int) : ℚ)⌋ + minSmearBlockSize
    = bw
  generalize ⌊r2 * ((maxSmearBlockSize - minSmearBlockSize + 1 : Int) : ℚ)⌋ + minSmearBlockSize
    = bh
  have hsx := floor_mul_range r3 (max 1 (W - max 1 (min bw W) + 1)) h3.1 h3.2 (le_max_left _ _)
  have hsy := floor_mul_range r4 (max 1 (H - max 1 (min bh H) + 1)) h4.1 h4.2 (le_max_left _ _)
  generalize ⌊r3 * ((max 1 (W - max 1 (min bw W) + 1) : Int) : ℚ)⌋ = sx at hsx ⊢
  generalize ⌊r4 * ((max 1 (H - max 1 (min bh H) + 1) : Int) : ℚ)⌋ = sy at hsy ⊢
  generalize ⌊(sx : ℚ) + smearDirX * blockSmearDistance + (r5 - 1 / 2) * blockSmearRandomness⌋
    = dx
  generalize ⌊(sy : ℚ) + smearDirY * blockSmearDistance + (r6 - 1 / 2) * blockSmearRandomness⌋
    = dy
  omega

theorem smearBlockArgs_within_region_witness :
    (smearBlockArgs 3 2 (-1) 0 (1 / 2) (1 / 2) (1 / 2) (9 / 10) (1 / 2) (1 / 2)).fitsRegion 3 2 :=
  smearBlockArgs_within_region 3 2 (-1) 0 (1 / 2) (1 / 2) (1 / 2) (9 / 10) (1 / 2) (1 / 2)
    (by norm_num) (by norm_num) (by norm_num) (by norm_num) (by norm_num) (by norm_num)
    (by norm_num) (by norm_num)

/-! ## Direction changes, the handler and the audio calls -/

theorem range_three : List.range 3 = [0, 1, 2] := by decide

theorem handleDirectionChange_of_not_ready (s : State) (d : ℚ × ℚ)
    (h : s.audioContext = none ∨ s.audioContext ≠ some AudioContextState.running ∨
      s.oscillator = false ∨ s.gainNode = false) :
    handleDirectionChange s d = s := by
  unfold handleDirectionChange
  rw [if_pos h]

theorem handleDirectionChange_of_same (s : State) (d : ℚ × ℚ)
    (h : classify d = s.lastMoveDirection) :
    handleDirectionChange s d = s := by
  unfold handleDirectionChange
  by_cases h1 : s.audioContext = none ∨ s.audioContext ≠ some AudioContextState.running ∨
      s.oscillator = false ∨ s.gainNode = false
  · rw [if_pos h1]
  · rw [if_neg h1, if_neg (by rw [h]; simp)]

theorem handleDirectionChange_of_transition (s : State) (d : ℚ × ℚ)
    (h1 : ¬ (s.audioContext = none ∨ s.audioContext ≠ some AudioContextState.running ∨
      s.oscillator = false ∨ s.gainNode = false))
    (h2 : classify d ≠ s.lastMoveDirection) :
    handleDirectionChange s d = afterTransition s (classify d) := by
  have h3 : (classify d).1 ≠ s.lastMoveDirection.1 ∨ (classify d).2 ≠ s.lastMoveDirection.2 := by
    by_contra hcon
    simp only [not_or, not_not] at hcon
    exact h2 (Prod.ext hcon.1 hcon.2)
  unfold handleDirectionChange
  rw [if_neg h1, if_pos h3]
  simp only [State.audio, jumpStep, State.nextRandom, range_three, List.foldl, afterTransition,
    pulseCalls, List.append_assoc, List.singleton_append, List.cons_append, List.nil_append]
  norm_num

theorem handleDirectionChange_cases (s : State) (d : ℚ × ℚ) :
    handleDirectionChange s d = s ∨
      (s.audioContext = some AudioContextState.running ∧ s.oscillator = true ∧
        s.gainNode = true ∧ classify d ≠ s.lastMoveDirection ∧
        handleDirectionChange s d = afterTransition s (classify d)) := by
  by_cases h1 : s.audioContext = none ∨ s.audioContext ≠ some AudioContextState.running ∨
      s.oscillator = false ∨ s.gainNode = false
  · exact Or.inl (handleDirectionChange_of_not_ready s d h1)
  · by_cases h2 : classify d = s.lastMoveDirection
    · exact Or.inl (handleDirectionChange_of_same s d h2)
    · refine Or.inr ⟨?_, ?_, ?_, h2, handleDirectionChange_of_transition s d h1 h2⟩
      · by_contra hc; exact h1 (Or.inr (Or.inl hc))
      · by_contra hc; exact h1 (Or.inr (Or.inr (Or.inl (by simpa using hc))))
      · by_contra hc; exact h1 (Or.inr (Or.inr (Or.inr (by simpa using hc))))

theorem pulseCalls_gainSafe (b r0 r1 r2 : ℚ) : ∀ c ∈ pulseCalls b r0 r1 r2, gainSafe c := by
  intro c hc
  simp only [pulseCalls, List.mem_cons, List.mem_singleton, List.not_mem_nil, or_false] at hc
  rcases hc with rfl | rfl | rfl | rfl | rfl | rfl | rfl <;> simp only [gainSafe] <;> norm_num

theorem handleDirectionChange_frame (s : State) (d : ℚ × ℚ) :
    (handleDirectionChange s d).uploadedImage = s.uploadedImage ∧
    (handleDirectionChange s d).lastMouseX = s.lastMouseX ∧
    (handleDirectionChange s d).lastMouseY = s.lastMouseY ∧
    (handleDirectionChange s d).audioContext = s.audioContext ∧
    (handleDirectionChange s d).oscillator = s.oscillator ∧
    (handleDirectionChange s d).gainNode = s.gainNode ∧
    (handleDirectionChange s d).canvasWidth = s.canvasWidth ∧
    (handleDirectionChange s d).canvasHeight = s.canvasHeight ∧
    (handleDirectionChange s d).canvasPixels = s.canvasPixels ∧
    (handleDirectionChange s d).canvasCalls = s.canvasCalls ∧
    (handleDirectionChange s d).random = s.random := by
  rcases handleDirectionChange_cases s d with h | ⟨-, -, -, -, h⟩ <;> rw [h] <;>
    exact ⟨rfl, rfl, rfl, rfl, rfl, rfl, rfl, rfl, rfl, rfl, rfl⟩

theorem smearStep_fst (W H : Int) (dx dy : ℚ) (acc : State × List Nat) (i : Nat) :
    (smearStep W H dx dy acc i).1 = { acc.1 with randomCursor := acc.1.randomCursor + 6 } := by
  simp [smearStep, State.nextRandom]

theorem smearLoop_fst (W H : Int) (dx dy : ℚ) (l : List Nat) :
    ∀ acc : State × List Nat,
      (l.foldl (smearStep W H dx dy) acc).1
        = { acc.1 with randomCursor := acc.1.randomCursor + 6 * l.length } := by
  induction l with
  | nil => intro acc; rfl
  | cons i l ih =>
    intro acc
    rw [List.foldl_cons, ih, smearStep_fst]
    simp only [List.length_cons]
    congr 1
    omega

theorem handleMouseMove_degenerate (sqrt : ℚ → ℚ) (s : State) (mouseX mouseY : ℚ)
    (hdeg : (effectArea s.canvasWidth s.canvasHeight
        (mirroredPoint s.canvasWidth s.canvasHeight mouseX mouseY).1
        (mirroredPoint s.canvasWidth s.canvasHeight mouseX mouseY).2).areaWidth ≤ 0 ∨
      (effectArea s.canvasWidth s.canvasHeight
        (mirroredPoint s.canvasWidth s.canvasHeight mouseX mouseY).1
        (mirroredPoint s.canvasWidth s.canvasHeight mouseX mouseY).2).areaHeight ≤ 0) :
    ∃ s', handleMouseMove sqrt s mouseX mouseY = Except.ok s' ∧
      s'.canvasPixels = s.canvasPixels ∧ s'.canvasCalls = s.canvasCalls := by
  unfold handleMouseMove
  by_cases hu : s.uploadedImage = false
  · rw [if_pos hu]; exact ⟨s, rfl, rfl, rfl⟩
  rw [if_neg hu]
  cases hx : s.lastMouseX with
  | none => exact ⟨_, rfl, rfl, rfl⟩
  | some lx =>
    cases hy : s.lastMouseY with
    | none => exact ⟨_, rfl, rfl, rfl⟩
    | some ly =>
      simp only []
      by_cases hm : sqrt ((mouseX - lx) * (mouseX - lx) + (mouseY - ly) * (mouseY - ly)) < 1
      · rw [if_pos hm]
        split_ifs
        · exact ⟨_, rfl, rfl, rfl⟩
        · exact ⟨_, rfl, rfl, rfl⟩
      · rw [if_neg hm]
        have hf := handleDirectionChange_frame
          { s with lastMouseX := some mouseX, lastMouseY := some mouseY }
          (mouseX - lx, mouseY - ly)
        obtain ⟨-, -, -, -, -, -, hw, hh, hp, hc, -⟩ := hf
        rw [hw, hh, if_pos hdeg]
        exact ⟨_, rfl, hp, hc⟩

theorem gainValue_range (m : ℚ) (hm : 0 ≤ m) : 0 ≤ gainValue m ∧ gainValue m ≤ 4 / 10 := by
  unfold gainValue
  constructor
  · exact le_min (by norm_num) (div_nonneg hm (by norm_num))
  · exact min_le_left _ _

theorem gainValue_linear (m : ℚ) (hm : m ≤ 12) : gainValue m = m / 30 := by
  unfold gainValue
  apply min_eq_right
  linarith

theorem handleDirectionChange_audioCalls (s : State) (d : ℚ × ℚ) :
    ∃ new, (handleDirectionChange s d).audioCalls = s.audioCalls ++ new ∧
      ∀ c ∈ new, gainSafe c := by
  rcases handleDirectionChange_cases s d with h | ⟨-, -, -, -, h⟩
  · exact ⟨[], by rw [h, List.append_nil], by intro c hc; cases hc⟩
  · exact ⟨_, by rw [h]; rfl, pulseCalls_gainSafe _ _ _ _⟩

theorem initAudio_audioCalls (s : State) (created : Option AudioContextState) :
    ∃ new, (initAudio s created).audioCalls = s.audioCalls ++ new ∧
      ∀ c ∈ new, gainSafe c := by
  unfold initAudio
  split_ifs
  · exact ⟨[], by rw [List.append_nil], by intro c hc; cases hc⟩
  · cases created with
    | none => exact ⟨[], by simp, by intro c hc; cases hc⟩
    | some st =>
      refine ⟨[AudioCall.frequencySetValueAtTime
        (glitchFrequencies.getD s.currentGlitchFrequencyIndex 0) 0,
        AudioCall.gainSetValueAtTime 0 0], by simp [State.audio], ?_⟩
      intro c hc
      simp only [List.mem_cons, List.mem_singleton, List.not_mem_nil, or_false] at hc
      rcases hc with rfl | rfl
      · simp only [gainSafe]
      · simp only [gainSafe]
        norm_num

theorem handleMouseMove_audioCalls (sqrt : ℚ → ℚ) (s : State) (mouseX mouseY : ℚ) (s' : State)
    (h : handleMouseMove sqrt s mouseX mouseY = Except.ok s') :
    ∃ new, s'.audioCalls = s.audioCalls ++ new ∧ ∀ c ∈ new, gainSafe c := by
  have hnil : ∀ t : State, t.audioCalls = s.audioCalls →
      ∃ new, t.audioCalls = s.audioCalls ++ new ∧ ∀ c ∈ new, gainSafe c :=
    fun t ht => ⟨[], by rw [ht, List.append_nil], by intro c hc; cases hc⟩
  unfold handleMouseMove at h
  by_cases hu : s.uploadedImage = false
  · rw [if_pos hu] at h
    cases h
    exact hnil _ rfl
  rw [if_neg hu] at h
  cases hx : s.lastMouseX with
  | none => rw [hx] at h; cases h; exact hnil _ rfl
  | some lx =>
    cases hy : s.lastMouseY with
    | none => rw [hx, hy] at h; cases h; exact hnil _ rfl
    | some ly =>
      rw [hx, hy] at h
      simp only [] at h
      by_cases hm : sqrt ((mouseX - lx) * (mouseX - lx) + (mouseY - ly) * (mouseY - ly)) < 1
      · rw [if_pos hm] at h
        split_ifs at h
        · cases h
          refine ⟨[AudioCall.gainLinearRampToValueAtTime 0 (1 / 10)], rfl, ?_⟩
          intro c hc
          simp only [List.mem_singleton] at hc
          subst hc
          simp only [gainSafe]
          norm_num
        · cases h
          exact hnil _ rfl
      · rw [if_neg hm] at h
        obtain ⟨new1, hnew1, hsafe1⟩ := handleDirectionChange_audioCalls
          { s with lastMouseX := some mouseX, lastMouseY := some mouseY }
          (mouseX - lx, mouseY - ly)
        generalize handleDirectionChange
          { s with lastMouseX := some mouseX, lastMouseY := some mouseY }
          (mouseX - lx, mouseY - ly) = s2 at h hnew1
        by_cases hdeg : (effectArea s2.canvasWidth s2.canvasHeight
              (mirroredPoint s2.canvasWidth s2.canvasHeight mouseX mouseY).1
              (mirroredPoint s2.canvasWidth s2.canvasHeight mouseX mouseY).2).areaWidth ≤ 0 ∨
            (effectArea s2.canvasWidth s2.canvasHeight
              (mirroredPoint s2.canvasWidth s2.canvasHeight mouseX mouseY).1
              (mirroredPoint s2.canvasWidth s2.canvasHeight mouseX mouseY).2).areaHeight ≤ 0
        · rw [if_pos hdeg] at h
          cases h
          exact ⟨new1, hnew1, hsafe1⟩
        rw [if_neg hdeg] at h
        simp only [State.canvas, State.audio, smearLoop_fst] at h
        by_cases hrun : s2.audioContext = some AudioContextState.running ∧
            s2.uploadedImage = true
        · rw [if_pos hrun] at h
          by_cases hg : s2.gainNode = true
          · rw [if_pos hg] at h
            cases h
            refine ⟨new1 ++ [AudioCall.gainLinearRampToValueAtTime (gainValue
              (sqrt ((mouseX - lx) * (mouseX - lx) + (mouseY - ly) * (mouseY - ly))))
              (5 / 100)], ?_, ?_⟩
            · simp only [hnew1, List.append_assoc]
            · intro c hc
              rcases List.mem_append.mp hc with hc | hc
              · exact hsafe1 c hc
              · simp only [List.mem_singleton] at hc
                subst hc
                simp only [gainSafe]
                exact gainValue_range _ (le_trans (by norm_num) (not_lt.mp hm))
          · rw [if_neg hg] at h
            cases h
        · rw [if_neg hrun] at h
          cases h
          exact ⟨new1, hnew1, hsafe1⟩

theorem effectArea_bounds (cw ch : Nat) (mx my : ℚ) :
    0 ≤ (effectArea cw ch mx my).areaX ∧
    (effectArea cw ch mx my).areaX + (effectArea cw ch mx my).areaWidth ≤ cw ∧
    0 ≤ (effectArea cw ch mx my).areaY ∧
    (effectArea cw ch mx my).areaY + (effectArea cw ch mx my).areaHeight ≤ ch ∧
    (effectArea cw ch mx my).areaWidth ≤ effectAreaSize ∧
    (effectArea cw ch mx my).areaHeight ≤ effectAreaSize := by
  simp only [effectArea]
  generalize ⌊mx - (effectAreaSize : ℚ) / 2⌋ = fx
  generalize ⌊my - (effectAreaSize : ℚ) / 2⌋ = fy
  generalize effectAreaSize = e
  omega

theorem mirroredPoint_example : mirroredPoint 200 200 60 55 = (140, 145) := by
  simp only [mirroredPoint]
  norm_num

theorem effectArea_example : effectArea 200 200 140 145 = ⟨90, 95, 100, 100⟩ := by
  simp only [effectArea, effectAreaSize]
  norm_num

/-- C3: for every canvas and pointer position the effect rectangle satisfies
`0 ≤ areaX`, `areaX + areaWidth ≤ canvas width`, `0 ≤ areaY`,
`areaY + areaHeight ≤ canvas height`, `areaWidth ≤ effectAreaSize` and
`areaHeight ≤ effectAreaSize`; when `areaWidth ≤ 0` or `areaHeight ≤ 0` the
handler returns without any `getImageData` or `putImageData` call and leaves
the canvas pixels as they were.  On a 200 x 200 canvas with the pointer at
`(60, 55)` the mirrored point is `(140, 145)` and the region is
`x = 90, y = 95, width = 100, height = 100`. -/
theorem effectArea_within_canvas (sqrt : ℚ → ℚ) (s : State) (mouseX mouseY : ℚ) :
    (0 ≤ (effectAreaAt s.canvasWidth s.canvasHeight mouseX mouseY).areaX ∧
      (effectAreaAt s.canvasWidth s.canvasHeight mouseX mouseY).areaX +
        (effectAreaAt s.canvasWidth s.canvasHeight mouseX mouseY).areaWidth ≤ s.canvasWidth ∧
      0 ≤ (effectAreaAt s.canvasWidth s.canvasHeight mouseX mouseY).areaY ∧
      (effectAreaAt s.canvasWidth s.canvasHeight mouseX mouseY).areaY +
        (effectAreaAt s.canvasWidth s.canvasHeight mouseX mouseY).areaHeight ≤ s.canvasHeight ∧
      (effectAreaAt s.canvasWidth s.canvasHeight mouseX mouseY).areaWidth ≤ effectAreaSize ∧
      (effectAreaAt s.canvasWidth s.canvasHeight mouseX mouseY).areaHeight ≤ effectAreaSize) ∧
    ((effectAreaAt s.canvasWidth s.canvasHeight mouseX mouseY).areaWidth ≤ 0 ∨
        (effectAreaAt s.canvasWidth s.canvasHeight mouseX mouseY).areaHeight ≤ 0 →
      ∃ s', handleMouseMove sqrt s mouseX mouseY = Except.ok s' ∧
        s'.canvasPixels = s.canvasPixels ∧ s'.canvasCalls = s.canvasCalls) ∧
    (mirroredPoint 200 200 60 55 = (140, 145) ∧
      effectAreaAt 200 200 60 55 = ⟨90, 95, 100, 100⟩) := by
  refine ⟨effectArea_bounds _ _ _ _, fun hdeg => handleMouseMove_degenerate sqrt s mouseX mouseY hdeg,
    mirroredPoint_example, ?_⟩
  unfold effectAreaAt
  rw [mirroredPoint_example]
  exact effectArea_example

theorem effectArea_within_canvas_witness :
    ∃ s', handleMouseMove (fun _ => 5) loadedState (-60) 10 = Except.ok s' ∧
      s'.canvasPixels = loadedState.canvasPixels ∧
      s'.canvasCalls = loadedState.canvasCalls :=
  (effectArea_within_canvas (fun _ => 5) loadedState (-60) 10).2.1
    (Or.inl (by
      simp only [effectAreaAt, effectArea, mirroredPoint, effectAreaSize, loadedState]
      norm_num))

/-- C4, as stated, fails: with a loaded image, a previous pointer sample and
no audio context, a move of magnitude `0` schedules nothing, so no ramp of
the volume toward `0` is issued. -/
theorem below_threshold_counterexample :
    loadedState.uploadedImage = true ∧
    loadedState.lastMouseX = some 10 ∧
    loadedState.lastMouseY = some 10 ∧
    (fun _ : ℚ => (0 : ℚ)) ((10 - 10) * (10 - 10) + (10 - 10) * (10 - 10)) < 1 ∧
    ∃ s', handleMouseMove (fun _ => 0) loadedState 10 10 = Except.ok s' ∧
      s'.audioCalls = [] := by
  refine ⟨rfl, rfl, rfl, by norm_num, ?_⟩
  refine ⟨{ loadedState with lastMouseX := some 10, lastMouseY := some 10 }, ?_, rfl⟩
  simp [handleMouseMove, loadedState]

/-- C4 (amended): for a move event with a loaded image and a previous pointer
sample whose motion magnitude is below 1, the handler returns normally, no
canvas pixel is changed and no canvas call is made, the direction state and
the frequency index are unchanged; when the audio context is running and the
gain node exists the only audio call is a linear ramp of the gain to `0` at
`currentTime + 0.1`, and when no audio context exists no audio call is made. -/
theorem handleMouseMove_below_threshold (sqrt : ℚ → ℚ) (s : State)
    (mouseX mouseY lastX lastY : ℚ)
    (hu : s.uploadedImage = true) (hx : s.lastMouseX = some lastX)
    (hy : s.lastMouseY = some lastY)
    (hm : sqrt ((mouseX - lastX) * (mouseX - lastX) + (mouseY - lastY) * (mouseY - lastY)) < 1) :
    ∃ s', handleMouseMove sqrt s mouseX mouseY = Except.ok s' ∧
      s'.canvasPixels = s.canvasPixels ∧ s'.canvasCalls = s.canvasCalls ∧
      s'.lastMoveDirection = s.lastMoveDirection ∧
      s'.currentGlitchFrequencyIndex = s.currentGlitchFrequencyIndex ∧
      (s.audioContext = some AudioContextState.running → s.gainNode = true →
        s'.audioCalls = s.audioCalls ++ [AudioCall.gainLinearRampToValueAtTime 0 (1 / 10)]) ∧
      (s.audioContext = none → s'.audioCalls = s.audioCalls) := by
  unfold handleMouseMove
  rw [if_neg (by rw [hu]; decide), hx, hy]
  simp only []
  rw [if_pos hm]
  by_cases ha : s.audioContext ≠ none ∧ s.gainNode = true
  · rw [if_pos ha]
    refine ⟨_, rfl, rfl, rfl, rfl, rfl, fun _ _ => rfl, fun hn => absurd hn ha.1⟩
  · rw [if_neg ha]
    refine ⟨_, rfl, rfl, rfl, rfl, rfl, fun hr hg => ?_, fun _ => rfl⟩
    exact absurd ⟨by rw [hr]; exact Option.some_ne_none _, hg⟩ ha

theorem handleMouseMove_below_threshold_witness :
    ∃ s', handleMouseMove (fun _ => 0) (audioState AudioContextState.running)
        10 10 = Except.ok s' ∧
      s'.canvasPixels = (audioState AudioContextState.running).canvasPixels ∧
      s'.canvasCalls = (audioState AudioContextState.running).canvasCalls ∧
      s'.lastMoveDirection = (audioState AudioContextState.running).lastMoveDirection ∧
      s'.currentGlitchFrequencyIndex =
        (audioState AudioContextState.running).currentGlitchFrequencyIndex ∧
      ((audioState AudioContextState.running).audioContext
          = some AudioContextState.running →
        (audioState AudioContextState.running).gainNode = true →
        s'.audioCalls = (audioState AudioContextState.running).audioCalls ++
          [AudioCall.gainLinearRampToValueAtTime 0 (1 / 10)]) ∧
      ((audioState AudioContextState.running).audioContext = none →
        s'.audioCalls = (audioState AudioContextState.running).audioCalls) :=
  handleMouseMove_below_threshold (fun _ => 0) (audioState AudioContextState.running)
    10 10 10 10 rfl rfl rfl (by norm_num)

/-- C5: with the audio graph running, a second call of
`handleDirectionChange` with the same vector returns the state the first
call produced: the direction state, the frequency index and the list of
scheduled audio calls are those left by the first call. -/
theorem handleDirectionChange_idempotent (s : State) (direction : ℚ × ℚ)
    (hrun : s.audioContext = some AudioContextState.running ∧ s.oscillator = true ∧
      s.gainNode = true) :
    handleDirectionChange (handleDirectionChange s direction) direction
        = handleDirectionChange s direction ∧
    (handleDirectionChange (handleDirectionChange s direction) direction).lastMoveDirection
        = (handleDirectionChange s direction).lastMoveDirection ∧
    (handleDirectionChange (handleDirectionChange s direction)
        direction).currentGlitchFrequencyIndex
        = (handleDirectionChange s direction).currentGlitchFrequencyIndex ∧
    (handleDirectionChange (handleDirectionChange s direction) direction).audioCalls
        = (handleDirectionChange s direction).audioCalls := by
  have key : handleDirectionChange (handleDirectionChange s direction) direction
      = handleDirectionChange s direction := by
    by_cases hsame : classify direction = s.lastMoveDirection
    · rw [handleDirectionChange_of_same s direction hsame,
        handleDirectionChange_of_same s direction hsame]
    · have hready : ¬ (s.audioContext = none ∨ s.audioContext ≠ some AudioContextState.running ∨
          s.oscillator = false ∨ s.gainNode = false) := by
        rw [hrun.1, hrun.2.1, hrun.2.2]
        simp
      rw [handleDirectionChange_of_transition s direction hready hsame]
      exact handleDirectionChange_of_same _ direction rfl
  rw [key]
  exact ⟨rfl, rfl, rfl, rfl⟩

theorem handleDirectionChange_idempotent_witness :
    handleDirectionChange
        (handleDirectionChange (audioState AudioContextState.running) (3, 1)) (3, 1)
      = handleDirectionChange (audioState AudioContextState.running) (3, 1) :=
  (handleDirectionChange_idempotent (audioState AudioContextState.running) (3, 1)
    ⟨rfl, rfl, rfl⟩).1

/-- C6 fails on the code: with the audio context created but suspended (not
running), a loaded image and a pointer that has not moved, `handleMouseMove`
returns normally and has scheduled one more audio call, a linear ramp of the
gain to `0` at `currentTime + 0.1`. -/
theorem suspended_audio_still_ramps :
    (audioState AudioContextState.suspended).audioContext
        ≠ some AudioContextState.running ∧
    ∃ s', handleMouseMove (fun _ => 0) (audioState AudioContextState.suspended) 10 10
        = Except.ok s' ∧
      s'.audioCalls = (audioState AudioContextState.suspended).audioCalls ++
        [AudioCall.gainLinearRampToValueAtTime 0 (1 / 10)] := by
  refine ⟨by simp [audioState, initAudio, loadedState, State.audio], ?_⟩
  refine ⟨({ audioState AudioContextState.suspended with
    lastMouseX := some 10, lastMouseY := some 10 }).audio
      (AudioCall.gainLinearRampToValueAtTime 0 (1 / 10)), ?_, rfl⟩
  simp [handleMouseMove, audioState, initAudio, loadedState, State.audio]

/-- C8: the mirrored target point is `center + (center - pointer)`; for a
pointer at the canvas center it is the center, and for a pointer at `(0, 0)`
on a `W x H` canvas it is `(W, H)`. -/
theorem mirroredPoint_reflection (W H : Nat) (mouseX mouseY : ℚ) :
    mirroredPoint W H mouseX mouseY
        = ((W : ℚ) / 2 + ((W : ℚ) / 2 - mouseX), (H : ℚ) / 2 + ((H : ℚ) / 2 - mouseY)) ∧
    mirroredPoint W H ((W : ℚ) / 2) ((H : ℚ) / 2) = ((W : ℚ) / 2, (H : ℚ) / 2) ∧
    mirroredPoint W H 0 0 = ((W : ℚ), (H : ℚ)) := by
  refine ⟨rfl, ?_, ?_⟩
  · simp only [mirroredPoint, sub_self, add_zero]
  · simp only [mirroredPoint, sub_zero, add_halves]

/-- C9: every gain value the program sets or ramps to lies in `[0, 0.4]`:
the calls added by `initAudio`, by `handleDirectionChange` and by
`handleMouseMove` all satisfy `gainSafe`; the speed-tracking target
`gainValue m = min(0.4, m / 30)` lies in `[0, 0.4]` for every magnitude
`m ≥ 0` and equals `m / 30` whenever `m ≤ 12`. -/
theorem gain_always_clamped (m : ℚ) (hm : 0 ≤ m) (sqrt : ℚ → ℚ) (s : State)
    (created : Option AudioContextState) (direction : ℚ × ℚ) (mouseX mouseY : ℚ) :
    (0 ≤ gainValue m ∧ gainValue m ≤ 4 / 10) ∧
    (m ≤ 12 → gainValue m = m / 30) ∧
    (∃ new, (initAudio s created).audioCalls = s.audioCalls ++ new ∧ ∀ c ∈ new, gainSafe c) ∧
    (∃ new, (handleDirectionChange s direction).audioCalls = s.audioCalls ++ new ∧
      ∀ c ∈ new, gainSafe c) ∧
    (∀ s', handleMouseMove sqrt s mouseX mouseY = Except.ok s' →
      ∃ new, s'.audioCalls = s.audioCalls ++ new ∧ ∀ c ∈ new, gainSafe c) :=
  ⟨gainValue_range m hm, gainValue_linear m, initAudio_audioCalls s created,
    handleDirectionChange_audioCalls s direction,
    fun s' h => handleMouseMove_audioCalls sqrt s mouseX mouseY s' h⟩

theorem gain_always_clamped_witness :
    (0 ≤ gainValue 6 ∧ gainValue 6 ≤ 4 / 10) ∧ gainValue 6 = 6 / 30 :=
  have h := gain_always_clamped 6 (by norm_num) (fun _ => 5)
    (audioState AudioContextState.running) none (3, 1) 13 14
  ⟨h.1, h.2.1 (by norm_num)⟩

end Datamosh
